import Mathlib

/-!
Verification of the `RevenueBridge` settlement engine
(`src/contracts/RevenueBridge.sol`).

The contract is shallowly embedded: contract storage becomes a Lean
structure, every external function becomes a Lean function from the
pre-state (plus the call context `msg.sender`, the reentrancy-guard
flag and `block.timestamp`) to `Except BridgeError` of the post-state;
a Solidity revert is an `error` result that discards all writes, so an
erroring call leaves the state unchanged by construction.

Modelling conventions, stated once:
* `uint256` is modelled as `Nat`; Solidity 0.8 checked arithmetic never
  wraps, and the spec (section 3) treats amounts as abstract integers.
* `address` is `Nat`, with `0` the zero address.
* `bytes32` tags (source and destination system identifiers) are `Nat`;
  the `keccak256` constants are abstracted as distinct numerals, and no
  claim depends on their concrete values.
* Solidity mappings are total functions returning the zero-initialised
  default value, exactly as on chain: `invoiceToSettlement` maps an
  invoice to `0` when unset (the code tests `!= bytes32(0)`), and a
  settlement "exists" exactly when its `bridgedAt` field is nonzero
  (the code tests `entry.bridgedAt == 0`), matching the source checks.
  The invoice mapping is keyed by the invoice string itself, abstracting
  the injective-in-practice `keccak256(abi.encodePacked(_invoiceId))`.
* `_generateSettlementId` hashes `(invoiceId, timestamp, chainid,
  ++_settlementNonce)`; the hash is abstracted by the strictly
  increasing nonce itself, which preserves exactly the property the
  design relies on: a fresh identifier distinct from every earlier one.
* The NBPT token partition store is not part of `src/`; only its
  interface `INBPT` is. Its balances are modelled from the spec
  (section 6) and folded into the system state.
-/

namespace RevenueBridge

/-- Addresses are natural numbers; `0` is the zero address. -/
abbrev Address := Nat

/-- Basis points denominator, `BASIS_POINTS` in the source (10000 = 100.00%). -/
def BASIS_POINTS : Nat := 10000

/-- Source system tag `SOURCE_STRIPE` (`keccak256("STRIPE")` abstracted as a numeral). -/
def SOURCE_STRIPE : Nat := 1

/-- Source system tag `SOURCE_MERCURY` (abstracted `keccak256` constant). -/
def SOURCE_MERCURY : Nat := 2

/-- Source system tag `SOURCE_ESCROW` (abstracted `keccak256` constant). -/
def SOURCE_ESCROW : Nat := 3

/-- Source system tag `SOURCE_MANUAL` (abstracted `keccak256` constant). -/
def SOURCE_MANUAL : Nat := 4

/-- Destination system tag `DEST_DAO_TREASURY` (abstracted `keccak256` constant). -/
def DEST_DAO_TREASURY : Nat := 11

/-- Destination system tag `DEST_OPERATIONS` (abstracted `keccak256` constant). -/
def DEST_OPERATIONS : Nat := 12

/-- Destination system tag `DEST_RESERVE` (abstracted `keccak256` constant). -/
def DEST_RESERVE : Nat := 13

/-- Settlement status of a revenue entry, enum `SettlementStatus` in the source.
Solidity zero-initialises the field to the first member `PENDING`. -/
inductive SettlementStatus where
  | PENDING
  | SETTLED
  | REVERSED
  | DISPUTED
deriving DecidableEq, Repr

/-- Struct `RevenueEntry` of the source: one record per settlement. -/
structure RevenueEntry where
  invoiceId : String
  payer : Address
  beneficiary : Address
  amount : Nat
  currency : Address
  sourceSystem : Nat
  destinationSystem : Nat
  settlementId : Nat
  status : SettlementStatus
  bridgedAt : Nat
  settledAt : Nat
deriving DecidableEq, Repr

/-- Zero-initialised `RevenueEntry`, the value a Solidity mapping returns
for an absent key. -/
def defaultEntry : RevenueEntry :=
  { invoiceId := ""
    payer := 0
    beneficiary := 0
    amount := 0
    currency := 0
    sourceSystem := 0
    destinationSystem := 0
    settlementId := 0
    status := .PENDING
    bridgedAt := 0
    settledAt := 0 }

/-- Struct `AllocationConfig` of the source: four partition weights in basis points. -/
structure AllocationConfig where
  reserveBps : Nat
  liquidityBps : Nat
  enterpriseBps : Nat
  stakingBps : Nat
deriving DecidableEq, Repr

/-- Default allocation installed by the constructor:
40% reserve, 30% liquidity, 20% enterprise, 10% staking. -/
def defaultAllocation : AllocationConfig :=
  { reserveBps := 4000, liquidityBps := 3000, enterpriseBps := 2000, stakingBps := 1000 }

/-- Named result of `_calculateAllocations` (the source returns the four
amounts as named return values). -/
structure Allocations where
  reserveAmt : Nat
  liquidityAmt : Nat
  enterpriseAmt : Nat
  stakingAmt : Nat
deriving DecidableEq, Repr

/-- `_calculateAllocations` of the source: the first three partitions get
truncating proportional shares, staking gets the entire remainder
(`_amount - reserveAmt - liquidityAmt - enterpriseAmt`). -/
def calculateAllocations (cfg : AllocationConfig) (amount : Nat) : Allocations :=
  let reserveAmt := amount * cfg.reserveBps / BASIS_POINTS
  let liquidityAmt := amount * cfg.liquidityBps / BASIS_POINTS
  let enterpriseAmt := amount * cfg.enterpriseBps / BASIS_POINTS
  { reserveAmt := reserveAmt
    liquidityAmt := liquidityAmt
    enterpriseAmt := enterpriseAmt
    stakingAmt := amount - reserveAmt - liquidityAmt - enterpriseAmt }

/-- Truncating division distributes subadditively over addition. -/
theorem add_div_le_div (a b n : Nat) : a / n + b / n ≤ (a + b) / n := by
  rcases Nat.eq_zero_or_pos n with h | h
  · simp [h]
  · rw [Nat.le_div_iff_mul_le h, Nat.add_mul]
    exact Nat.add_le_add (Nat.div_mul_le_self a n) (Nat.div_mul_le_self b n)

/-- Under a config whose weights sum to at most the denominator, the three
proportional shares never exceed the total. -/
theorem three_shares_le (cfg : AllocationConfig) (amount : Nat)
    (h : cfg.reserveBps + cfg.liquidityBps + cfg.enterpriseBps ≤ BASIS_POINTS) :
    amount * cfg.reserveBps / BASIS_POINTS + amount * cfg.liquidityBps / BASIS_POINTS
      + amount * cfg.enterpriseBps / BASIS_POINTS ≤ amount := by
  have h1 : amount * cfg.reserveBps / BASIS_POINTS + amount * cfg.liquidityBps / BASIS_POINTS
      + amount * cfg.enterpriseBps / BASIS_POINTS
      ≤ (amount * cfg.reserveBps + amount * cfg.liquidityBps + amount * cfg.enterpriseBps)
          / BASIS_POINTS := by
    calc amount * cfg.reserveBps / BASIS_POINTS + amount * cfg.liquidityBps / BASIS_POINTS
          + amount * cfg.enterpriseBps / BASIS_POINTS
        ≤ (amount * cfg.reserveBps + amount * cfg.liquidityBps) / BASIS_POINTS
            + amount * cfg.enterpriseBps / BASIS_POINTS := by
          exact Nat.add_le_add_right (add_div_le_div _ _ _) _
      _ ≤ (amount * cfg.reserveBps + amount * cfg.liquidityBps + amount * cfg.enterpriseBps)
            / BASIS_POINTS := add_div_le_div _ _ _
  have h2 : amount * cfg.reserveBps + amount * cfg.liquidityBps + amount * cfg.enterpriseBps
      = amount * (cfg.reserveBps + cfg.liquidityBps + cfg.enterpriseBps) := by ring
  have h3 : amount * (cfg.reserveBps + cfg.liquidityBps + cfg.enterpriseBps)
      ≤ amount * BASIS_POINTS := Nat.mul_le_mul_left amount h
  have h4 : amount * BASIS_POINTS / BASIS_POINTS = amount := by
    have : (0 : Nat) < BASIS_POINTS := by decide
    exact Nat.mul_div_cancel amount this
  calc amount * cfg.reserveBps / BASIS_POINTS + amount * cfg.liquidityBps / BASIS_POINTS
        + amount * cfg.enterpriseBps / BASIS_POINTS
      ≤ (amount * cfg.reserveBps + amount * cfg.liquidityBps + amount * cfg.enterpriseBps)
          / BASIS_POINTS := h1
    _ ≤ amount * BASIS_POINTS / BASIS_POINTS := by
        rw [h2]; exact Nat.div_le_div_right h3
    _ = amount := h4

/-- C1: for every amount and every `AllocationConfig` whose four weights sum to
10000, `calculateAllocations` returns the three truncating proportional shares,
gives the whole remainder to staking, and the four sub-amounts sum back to the
amount exactly; at amount 99 under the default config it returns
reserve 39, liquidity 29, enterprise 19, staking 12, and at amount 0 all zeros. -/
theorem C1_allocation_exact (amount : Nat) (cfg : AllocationConfig)
    (hsum : cfg.reserveBps + cfg.liquidityBps + cfg.enterpriseBps + cfg.stakingBps = 10000) :
    (calculateAllocations cfg amount).reserveAmt = amount * cfg.reserveBps / BASIS_POINTS ∧
    (calculateAllocations cfg amount).liquidityAmt = amount * cfg.liquidityBps / BASIS_POINTS ∧
    (calculateAllocations cfg amount).enterpriseAmt = amount * cfg.enterpriseBps / BASIS_POINTS ∧
    (calculateAllocations cfg amount).stakingAmt
      = amount - (calculateAllocations cfg amount).reserveAmt
          - (calculateAllocations cfg amount).liquidityAmt
          - (calculateAllocations cfg amount).enterpriseAmt ∧
    (calculateAllocations cfg amount).reserveAmt + (calculateAllocations cfg amount).liquidityAmt
      + (calculateAllocations cfg amount).enterpriseAmt
      + (calculateAllocations cfg amount).stakingAmt = amount ∧
    calculateAllocations defaultAllocation 99
      = { reserveAmt := 39, liquidityAmt := 29, enterpriseAmt := 19, stakingAmt := 12 } ∧
    calculateAllocations defaultAllocation 0
      = { reserveAmt := 0, liquidityAmt := 0, enterpriseAmt := 0, stakingAmt := 0 } := by
  have hle : amount * cfg.reserveBps / BASIS_POINTS + amount * cfg.liquidityBps / BASIS_POINTS
      + amount * cfg.enterpriseBps / BASIS_POINTS ≤ amount := by
    apply three_shares_le
    simp only [BASIS_POINTS]
    omega
  refine ⟨rfl, rfl, rfl, rfl, ?_, by decide, by decide⟩
  simp only [calculateAllocations]
  omega

/-- Witness for C1 at amount 99 under the default configuration. -/
theorem C1_allocation_exact_witness :
    (calculateAllocations defaultAllocation 99).reserveAmt
        = 99 * defaultAllocation.reserveBps / BASIS_POINTS ∧
    (calculateAllocations defaultAllocation 99).liquidityAmt
        = 99 * defaultAllocation.liquidityBps / BASIS_POINTS ∧
    (calculateAllocations defaultAllocation 99).enterpriseAmt
        = 99 * defaultAllocation.enterpriseBps / BASIS_POINTS ∧
    (calculateAllocations defaultAllocation 99).stakingAmt
      = 99 - (calculateAllocations defaultAllocation 99).reserveAmt
          - (calculateAllocations defaultAllocation 99).liquidityAmt
          - (calculateAllocations defaultAllocation 99).enterpriseAmt ∧
    (calculateAllocations defaultAllocation 99).reserveAmt
      + (calculateAllocations defaultAllocation 99).liquidityAmt
      + (calculateAllocations defaultAllocation 99).enterpriseAmt
      + (calculateAllocations defaultAllocation 99).stakingAmt = 99 ∧
    calculateAllocations defaultAllocation 99
      = { reserveAmt := 39, liquidityAmt := 29, enterpriseAmt := 19, stakingAmt := 12 } ∧
    calculateAllocations defaultAllocation 0
      = { reserveAmt := 0, liquidityAmt := 0, enterpriseAmt := 0, stakingAmt := 0 } :=
  C1_allocation_exact 99 defaultAllocation (by decide)

/-- Error surface of the contract. The names follow the source's custom
errors; `operationPaused` is OpenZeppelin Pausable's `EnforcedPause`
(the spec calls it `OperationPaused`), `expectedPause` its counterpart
for unpausing an unpaused contract, `reentrantCall` is the
ReentrancyGuard revert raised on a nested `nonReentrant` call, and the
Ownable errors come from OpenZeppelin `onlyOwner` / ownership transfer. -/
inductive BridgeError where
  | unauthorized
  | zeroAddress
  | zeroAmount
  | invalidPercentages
  | invoiceAlreadyProcessed (invoiceId : String)
  | settlementNotFound (settlementId : Nat)
  | invalidSettlementStatus (settlementId : Nat) (current required : SettlementStatus)
  | operationPaused
  | expectedPause
  | reentrantCall
  | ownableUnauthorizedAccount
  | ownableInvalidOwner
  | burnExceedsBalance (account : Address)
deriving DecidableEq, Repr

/-- Token partition identifiers of the NBPT token
(`PARTITION_RESERVE` .. `PARTITION_STAKING` of `INBPT`). -/
inductive Partition where
  | Reserve
  | Liquidity
  | Enterprise
  | Staking
deriving DecidableEq, Repr

/-- Per-partition, per-account token balances of the NBPT store. -/
abbrev Balances := Partition → Address → Nat

/-- Modelled from the spec: the Token Partition Store's
`issue(partition, account, amount)` (section 6) credits the account's
balance in that partition. The store itself is not under `src/`; only
its interface `INBPT.issueToPartition` is. -/
def issueToPartition (bal : Balances) (p : Partition) (account : Address) (amount : Nat) :
    Balances :=
  fun q a => if q = p ∧ a = account then bal q a + amount else bal q a

/-- Modelled from the spec: the Token Partition Store's
`burn(partition, account, amount)` (section 6), which "must fail loudly
if requested amount exceeds balance". Failure is `none`; the caller's
whole transaction then reverts. -/
def burnFromPartition (bal : Balances) (p : Partition) (account : Address) (amount : Nat) :
    Option Balances :=
  if bal p account < amount then none
  else some (fun q a => if q = p ∧ a = account then bal q a - amount else bal q a)

/-- `_issueToPartitions` of the source: issues the four computed amounts to the
beneficiary, skipping zero amounts. -/
def issueToPartitions (bal : Balances) (recipient : Address) (a : Allocations) : Balances :=
  let bal := if a.reserveAmt > 0 then issueToPartition bal .Reserve recipient a.reserveAmt else bal
  let bal :=
    if a.liquidityAmt > 0 then issueToPartition bal .Liquidity recipient a.liquidityAmt else bal
  let bal :=
    if a.enterpriseAmt > 0 then issueToPartition bal .Enterprise recipient a.enterpriseAmt else bal
  if a.stakingAmt > 0 then issueToPartition bal .Staking recipient a.stakingAmt else bal

/-- `_burnFromPartitions` of the source: burns the four computed amounts from
the account, skipping zero amounts; any failed burn aborts the whole call. -/
def burnFromPartitions (bal : Balances) (account : Address) (a : Allocations) :
    Option Balances := do
  let bal ← if a.reserveAmt > 0 then burnFromPartition bal .Reserve account a.reserveAmt
            else some bal
  let bal ← if a.liquidityAmt > 0 then burnFromPartition bal .Liquidity account a.liquidityAmt
            else some bal
  let bal ← if a.enterpriseAmt > 0 then burnFromPartition bal .Enterprise account a.enterpriseAmt
            else some bal
  if a.stakingAmt > 0 then burnFromPartition bal .Staking account a.stakingAmt else some bal

/-- Storage of the `RevenueBridge` contract together with the token store's
balances (the composed system state). `self` is the bridge contract's own
address: it becomes `msg.sender` of the external self-call performed by
`bridgeStripeRevenue` via `this.bridgeRevenue(...)`. -/
structure BridgeState where
  self : Address
  owner : Address
  bridgeOperator : Address
  paused : Bool
  allocation : AllocationConfig
  invoiceToSettlement : String → Nat
  settlements : Nat → RevenueEntry
  totalRevenueBridged : Nat
  totalRevenueReversed : Nat
  settlementNonce : Nat
  balances : Balances

/-- State written by a successful `bridgeRevenue` call: stores the entry under
the fresh settlement id, indexes the invoice, bumps the total and the nonce,
and issues the four partition amounts to the beneficiary. -/
def bridgeApply (s : BridgeState) (time : Nat) (invoiceId : String) (amount : Nat)
    (payer beneficiary currency : Address) (sourceSystem destinationSystem : Nat) :
    BridgeState :=
  let sid := s.settlementNonce + 1
  let entry : RevenueEntry :=
    { invoiceId := invoiceId
      payer := payer
      beneficiary := beneficiary
      amount := amount
      currency := currency
      sourceSystem := sourceSystem
      destinationSystem := destinationSystem
      settlementId := sid
      status := .SETTLED
      bridgedAt := time
      settledAt := time }
  { s with
    settlements := Function.update s.settlements sid entry
    invoiceToSettlement := Function.update s.invoiceToSettlement invoiceId sid
    totalRevenueBridged := s.totalRevenueBridged + amount
    settlementNonce := sid
    balances := issueToPartitions s.balances beneficiary (calculateAllocations s.allocation amount) }

/-- `bridgeRevenue` of the source. Modifier order is `onlyOperator`,
`nonReentrant`, `whenNotPaused`; then the zero-amount, zero-beneficiary and
duplicate-invoice checks, in source order. `sender` is `msg.sender`,
`entered` the ReentrancyGuard flag at call entry (false for a top-level
transaction), `time` is `block.timestamp`. -/
def bridgeRevenue (s : BridgeState) (sender : Address) (entered : Bool) (time : Nat)
    (invoiceId : String) (amount : Nat) (payer beneficiary currency : Address)
    (sourceSystem destinationSystem : Nat) : Except BridgeError (BridgeState × Nat) :=
  if sender ≠ s.bridgeOperator ∧ sender ≠ s.owner then .error .unauthorized
  else if entered then .error .reentrantCall
  else if s.paused then .error .operationPaused
  else if amount = 0 then .error .zeroAmount
  else if beneficiary = 0 then .error .zeroAddress
  else if s.invoiceToSettlement invoiceId ≠ 0 then .error (.invoiceAlreadyProcessed invoiceId)
  else .ok (bridgeApply s time invoiceId amount payer beneficiary currency
              sourceSystem destinationSystem,
            s.settlementNonce + 1)

/-- `bridgeStripeRevenue` of the source. Its body executes
`this.bridgeRevenue(...)`: an external self-call, so the inner call runs
with `msg.sender` equal to the contract's own address and with the
reentrancy guard already entered. -/
def bridgeStripeRevenue (s : BridgeState) (sender : Address) (entered : Bool) (time : Nat)
    (invoiceId : String) (amount : Nat) (beneficiary : Address) :
    Except BridgeError (BridgeState × Nat) :=
  if sender ≠ s.bridgeOperator ∧ sender ≠ s.owner then .error .unauthorized
  else if entered then .error .reentrantCall
  else if s.paused then .error .operationPaused
  else bridgeRevenue s s.self true time invoiceId amount 0 beneficiary 0
         SOURCE_STRIPE DEST_DAO_TREASURY

/-- Ledger part of a successful `reverseSettlement`: marks the entry REVERSED
and adds its original amount to `totalRevenueReversed`; `newBal` is the
balance map after the four burns. -/
def reverseApply (s : BridgeState) (settlementId : Nat) (newBal : Balances) : BridgeState :=
  { s with
    settlements := Function.update s.settlements settlementId
      { s.settlements settlementId with status := .REVERSED }
    totalRevenueReversed := s.totalRevenueReversed + (s.settlements settlementId).amount
    balances := newBal }

/-- `reverseSettlement` of the source. Modifier order is `onlyOperator`,
`nonReentrant`, `whenNotPaused`; existence is the `entry.bridgedAt == 0`
check; only SETTLED entries may be reversed; the burn amounts are recomputed
from the CURRENT allocation config (`_calculateAllocations(entry.amount)`). -/
def reverseSettlement (s : BridgeState) (sender : Address) (entered : Bool)
    (settlementId reason : Nat) : Except BridgeError BridgeState :=
  if sender ≠ s.bridgeOperator ∧ sender ≠ s.owner then .error .unauthorized
  else if entered then .error .reentrantCall
  else if s.paused then .error .operationPaused
  else if (s.settlements settlementId).bridgedAt = 0 then
    .error (.settlementNotFound settlementId)
  else if (s.settlements settlementId).status ≠ .SETTLED then
    .error (.invalidSettlementStatus settlementId (s.settlements settlementId).status .SETTLED)
  else
    match burnFromPartitions s.balances (s.settlements settlementId).beneficiary
            (calculateAllocations s.allocation (s.settlements settlementId).amount) with
    | none => .error (.burnExceedsBalance (s.settlements settlementId).beneficiary)
    | some newBal => .ok (reverseApply s settlementId newBal)

/-- State written by a successful `disputeSettlement`: the entry's status is
set to DISPUTED unconditionally. -/
def disputeApply (s : BridgeState) (settlementId : Nat) : BridgeState :=
  { s with
    settlements := Function.update s.settlements settlementId
      { s.settlements settlementId with status := .DISPUTED } }

/-- `disputeSettlement` of the source: only the `onlyOperator` modifier (no
`nonReentrant`, no `whenNotPaused`) and the existence check; no precondition
on the current status. -/
def disputeSettlement (s : BridgeState) (sender : Address) (settlementId : Nat) :
    Except BridgeError BridgeState :=
  if sender ≠ s.bridgeOperator ∧ sender ≠ s.owner then .error .unauthorized
  else if (s.settlements settlementId).bridgedAt = 0 then
    .error (.settlementNotFound settlementId)
  else .ok (disputeApply s settlementId)

/-- `setOperator` of the source: owner-only, rejects the zero address. -/
def setOperator (s : BridgeState) (sender newOperator : Address) :
    Except BridgeError BridgeState :=
  if sender ≠ s.owner then .error .ownableUnauthorizedAccount
  else if newOperator = 0 then .error .zeroAddress
  else .ok { s with bridgeOperator := newOperator }

/-- `setAllocation` of the source: owner-only, requires the four basis-point
values to sum exactly to `BASIS_POINTS`. -/
def setAllocation (s : BridgeState) (sender : Address)
    (reserveBps liquidityBps enterpriseBps stakingBps : Nat) :
    Except BridgeError BridgeState :=
  if sender ≠ s.owner then .error .ownableUnauthorizedAccount
  else if reserveBps + liquidityBps + enterpriseBps + stakingBps ≠ BASIS_POINTS then
    .error .invalidPercentages
  else .ok { s with
    allocation :=
      { reserveBps := reserveBps, liquidityBps := liquidityBps,
        enterpriseBps := enterpriseBps, stakingBps := stakingBps } }

/-- `pause` of the source: owner-only; OpenZeppelin `_pause` itself carries
`whenNotPaused`, so pausing twice reverts. -/
def pause (s : BridgeState) (sender : Address) : Except BridgeError BridgeState :=
  if sender ≠ s.owner then .error .ownableUnauthorizedAccount
  else if s.paused then .error .operationPaused
  else .ok { s with paused := true }

/-- `unpause` of the source: owner-only; OpenZeppelin `_unpause` carries
`whenPaused`, so unpausing an unpaused contract reverts. -/
def unpause (s : BridgeState) (sender : Address) : Except BridgeError BridgeState :=
  if sender ≠ s.owner then .error .ownableUnauthorizedAccount
  else if s.paused then .ok { s with paused := false }
  else .error .expectedPause

/-- OpenZeppelin Ownable `transferOwnership`, inherited by the contract:
owner-only, rejects the zero address. -/
def transferOwnership (s : BridgeState) (sender newOwner : Address) :
    Except BridgeError BridgeState :=
  if sender ≠ s.owner then .error .ownableUnauthorizedAccount
  else if newOwner = 0 then .error .ownableInvalidOwner
  else .ok { s with owner := newOwner }

/-- OpenZeppelin Ownable `renounceOwnership`, inherited by the contract:
owner-only, sets the owner to the zero address. -/
def renounceOwnership (s : BridgeState) (sender : Address) : Except BridgeError BridgeState :=
  if sender ≠ s.owner then .error .ownableUnauthorizedAccount
  else .ok { s with owner := 0 }

/-- `getSettlement` view of the source. -/
def getSettlement (s : BridgeState) (settlementId : Nat) : RevenueEntry :=
  s.settlements settlementId

/-- `getSettlementByInvoice` view of the source (`0` when not found). -/
def getSettlementByInvoice (s : BridgeState) (invoiceId : String) : Nat :=
  s.invoiceToSettlement invoiceId

/-- `isInvoiceProcessed` view of the source. -/
def isInvoiceProcessed (s : BridgeState) (invoiceId : String) : Bool :=
  s.invoiceToSettlement invoiceId != 0

/-- `netRevenue` view of the source: `totalRevenueBridged - totalRevenueReversed`
(unsigned subtraction). -/
def netRevenue (s : BridgeState) : Nat :=
  s.totalRevenueBridged - s.totalRevenueReversed

/-- One external transaction against the contract, with its call context. -/
inductive Op where
  | bridge (sender : Address) (time : Nat) (invoiceId : String) (amount : Nat)
      (payer beneficiary currency : Address) (sourceSystem destinationSystem : Nat)
  | bridgeStripe (sender : Address) (time : Nat) (invoiceId : String) (amount : Nat)
      (beneficiary : Address)
  | reverse (sender : Address) (settlementId reason : Nat)
  | dispute (sender : Address) (settlementId : Nat)
  | setOp (sender newOperator : Address)
  | setAlloc (sender reserveBps liquidityBps enterpriseBps stakingBps : Nat)
  | pauseCall (sender : Address)
  | unpauseCall (sender : Address)
  | transferOwn (sender newOwner : Address)
  | renounceOwn (sender : Address)

/-- Transaction semantics: a revert (`error`) leaves the state unchanged.
Top-level calls enter with the reentrancy guard clear. -/
def step (s : BridgeState) (op : Op) : BridgeState :=
  match op with
  | .bridge sender time invoiceId amount payer beneficiary currency src dst =>
      match bridgeRevenue s sender false time invoiceId amount payer beneficiary currency
              src dst with
      | .ok p => p.1
      | .error _ => s
  | .bridgeStripe sender time invoiceId amount beneficiary =>
      match bridgeStripeRevenue s sender false time invoiceId amount beneficiary with
      | .ok p => p.1
      | .error _ => s
  | .reverse sender settlementId reason =>
      match reverseSettlement s sender false settlementId reason with
      | .ok s1 => s1
      | .error _ => s
  | .dispute sender settlementId =>
      match disputeSettlement s sender settlementId with
      | .ok s1 => s1
      | .error _ => s
  | .setOp sender newOperator =>
      match setOperator s sender newOperator with
      | .ok s1 => s1
      | .error _ => s
  | .setAlloc sender r l e st =>
      match setAllocation s sender r l e st with
      | .ok s1 => s1
      | .error _ => s
  | .pauseCall sender =>
      match pause s sender with
      | .ok s1 => s1
      | .error _ => s
  | .unpauseCall sender =>
      match unpause s sender with
      | .ok s1 => s1
      | .error _ => s
  | .transferOwn sender newOwner =>
      match transferOwnership s sender newOwner with
      | .ok s1 => s1
      | .error _ => s
  | .renounceOwn sender =>
      match renounceOwnership s sender with
      | .ok s1 => s1
      | .error _ => s

/-- State right after the constructor: empty ledger, zero totals and nonce,
the default 40/30/20/10 allocation, not paused. -/
def initState (self operator ownerAddr : Address) : BridgeState :=
  { self := self
    owner := ownerAddr
    bridgeOperator := operator
    paused := false
    allocation := defaultAllocation
    invoiceToSettlement := fun _ => 0
    settlements := fun _ => defaultEntry
    totalRevenueBridged := 0
    totalRevenueReversed := 0
    settlementNonce := 0
    balances := fun _ _ => 0 }

/-- Executes a list of transactions in order. -/
def run (s : BridgeState) (ops : List Op) : BridgeState :=
  ops.foldl step s

/-- Reachable states: obtained from a freshly constructed contract (the
constructor rejects zero operator and owner addresses) by some sequence of
external transactions. -/
def Reachable (s : BridgeState) : Prop :=
  ∃ self operator ownerAddr ops, operator ≠ 0 ∧ ownerAddr ≠ 0 ∧
    s = run (initState self operator ownerAddr) ops

/-- Inversion of a successful `bridgeRevenue`: every guard passed and the
result is the described state update together with the fresh id. -/
theorem bridgeRevenue_ok_inv {s : BridgeState} {sender : Address} {entered : Bool}
    {time : Nat} {invoiceId : String} {amount : Nat} {payer beneficiary currency : Address}
    {src dst : Nat} {r : BridgeState × Nat}
    (h : bridgeRevenue s sender entered time invoiceId amount payer beneficiary currency
           src dst = .ok r) :
    (sender = s.bridgeOperator ∨ sender = s.owner) ∧ entered = false ∧ s.paused = false ∧
    amount ≠ 0 ∧ beneficiary ≠ 0 ∧ s.invoiceToSettlement invoiceId = 0 ∧
    r = (bridgeApply s time invoiceId amount payer beneficiary currency src dst,
         s.settlementNonce + 1) := by
  unfold bridgeRevenue at h
  split at h
  · simp at h
  · split at h
    · simp at h
    · split at h
      · simp at h
      · split at h
        · simp at h
        · split at h
          · simp at h
          · split at h
            · simp at h
            · rename_i h1 h2 h3 h4 h5 h6
              injection h with h7
              refine ⟨by tauto, by simpa using h2, by simpa using h3, h4, h5,
                by simpa using h6, h7.symm⟩

/-- Inversion of a successful `reverseSettlement`: every guard passed, the
entry was SETTLED, the burns succeeded, and the result is the described update. -/
theorem reverseSettlement_ok_inv {s : BridgeState} {sender : Address} {entered : Bool}
    {settlementId reason : Nat} {s1 : BridgeState}
    (h : reverseSettlement s sender entered settlementId reason = .ok s1) :
    (sender = s.bridgeOperator ∨ sender = s.owner) ∧ entered = false ∧ s.paused = false ∧
    (s.settlements settlementId).bridgedAt ≠ 0 ∧
    (s.settlements settlementId).status = .SETTLED ∧
    ∃ newBal,
      burnFromPartitions s.balances (s.settlements settlementId).beneficiary
          (calculateAllocations s.allocation (s.settlements settlementId).amount)
        = some newBal ∧
      s1 = reverseApply s settlementId newBal := by
  unfold reverseSettlement at h
  split at h
  next => simp at h
  next h1 =>
  split at h
  next => simp at h
  next h2 =>
  split at h
  next => simp at h
  next h3 =>
  split at h
  next => simp at h
  next h4 =>
  split at h
  next => simp at h
  next h5 =>
  split at h
  next => simp at h
  next newBal hburn =>
  injection h with h7
  exact ⟨by tauto, by simpa using h2, by simpa using h3, h4,
    by simpa using h5, newBal, hburn, h7.symm⟩

/-- Inversion of a successful `disputeSettlement`: the caller was authorized,
the entry existed, and the result sets its status to DISPUTED. -/
theorem disputeSettlement_ok_inv {s : BridgeState} {sender : Address}
    {settlementId : Nat} {s1 : BridgeState}
    (h : disputeSettlement s sender settlementId = .ok s1) :
    (sender = s.bridgeOperator ∨ sender = s.owner) ∧
    (s.settlements settlementId).bridgedAt ≠ 0 ∧ s1 = disputeApply s settlementId := by
  unfold disputeSettlement at h
  split at h
  · simp at h
  · split at h
    · simp at h
    · rename_i h1 h2
      injection h with h7
      exact ⟨by tauto, h2, h7.symm⟩

/-- The convenience variant can never succeed: either the outer `onlyOperator`
or outer guard rejects the caller, or the inner `this.bridgeRevenue` call runs
with `msg.sender` equal to the contract's own address — and even when that
address is authorized, the reentrancy guard entered by the outer call rejects
the nested `nonReentrant` call. -/
theorem bridgeStripeRevenue_never_ok (s : BridgeState) (sender : Address) (entered : Bool)
    (time : Nat) (invoiceId : String) (amount : Nat) (beneficiary : Address) :
    ∃ e, bridgeStripeRevenue s sender entered time invoiceId amount beneficiary
           = .error e := by
  unfold bridgeStripeRevenue bridgeRevenue
  split
  · exact ⟨_, rfl⟩
  · split
    · exact ⟨_, rfl⟩
    · split
      · exact ⟨_, rfl⟩
      · split
        · exact ⟨_, rfl⟩
        · split
          · exact ⟨_, rfl⟩
          · rename_i hq
            exact absurd rfl hq

/-- Contribution of one entry to the running SETTLED total. -/
def settledAmount (e : RevenueEntry) : Nat :=
  if e.status = .SETTLED then e.amount else 0

/-- Sum of the amounts of all currently SETTLED entries (all live settlement
ids lie in `1 .. settlementNonce`). -/
def sumSettled (s : BridgeState) : Nat :=
  ∑ k ∈ Finset.range (s.settlementNonce + 1), settledAmount (s.settlements k)

/-- Inductive invariant of the contract: ids above the nonce are unused, the
reversed total plus the amounts still SETTLED never exceed the bridged total,
the allocation weights sum to 10000, and no stored entry is PENDING. -/
structure GoodState (s : BridgeState) : Prop where
  high_default : ∀ k, s.settlementNonce < k → s.settlements k = defaultEntry
  sum_le : s.totalRevenueReversed + sumSettled s ≤ s.totalRevenueBridged
  alloc_sum : s.allocation.reserveBps + s.allocation.liquidityBps
      + s.allocation.enterpriseBps + s.allocation.stakingBps = 10000
  no_pending : ∀ k, (s.settlements k).status = .PENDING → s.settlements k = defaultEntry

/-- Any live settlement id (an id whose entry is not the zero entry) is at
most the current nonce. -/
theorem live_id_le {s : BridgeState} (h : GoodState s) {k : Nat}
    (hk : s.settlements k ≠ defaultEntry) : k ≤ s.settlementNonce := by
  by_contra hc
  push_neg at hc
  exact hk (h.high_default k hc)

/-- A successful bridge preserves the invariant. -/
theorem goodState_bridgeApply {s : BridgeState} (h : GoodState s) (time : Nat)
    (invoiceId : String) (amount : Nat) (payer beneficiary currency : Address)
    (src dst : Nat) :
    GoodState (bridgeApply s time invoiceId amount payer beneficiary currency src dst) := by
  have hsum : sumSettled (bridgeApply s time invoiceId amount payer beneficiary currency
      src dst) = sumSettled s + amount := by
    unfold sumSettled bridgeApply
    simp only
    rw [Finset.sum_range_succ]
    have h1 : ∀ k ∈ Finset.range (s.settlementNonce + 1),
        settledAmount (Function.update s.settlements (s.settlementNonce + 1)
          { invoiceId := invoiceId, payer := payer, beneficiary := beneficiary,
            amount := amount, currency := currency, sourceSystem := src,
            destinationSystem := dst, settlementId := s.settlementNonce + 1,
            status := .SETTLED, bridgedAt := time, settledAt := time } k)
        = settledAmount (s.settlements k) := by
      intro k hk
      rw [Finset.mem_range] at hk
      rw [Function.update_noteq (by omega)]
    rw [Finset.sum_congr rfl h1, Function.update_same]
    simp [settledAmount]
  constructor
  · intro k hk
    unfold bridgeApply at hk ⊢
    simp only at hk ⊢
    rw [Function.update_noteq (by omega)]
    exact h.high_default k (by omega)
  · rw [hsum]
    have := h.sum_le
    unfold bridgeApply
    simp only
    omega
  · exact h.alloc_sum
  · intro k hk
    unfold bridgeApply at hk ⊢
    simp only at hk ⊢
    by_cases hkk : k = s.settlementNonce + 1
    · subst hkk
      rw [Function.update_same] at hk
      simp at hk
    · rw [Function.update_noteq hkk] at hk ⊢
      exact h.no_pending k hk

/-- A successful reversal preserves the invariant: the reversed total grows by
exactly the amount that leaves the SETTLED sum. -/
theorem goodState_reverseApply {s : BridgeState} (h : GoodState s) {settlementId : Nat}
    (hbr : (s.settlements settlementId).bridgedAt ≠ 0)
    (hst : (s.settlements settlementId).status = .SETTLED) (newBal : Balances) :
    GoodState (reverseApply s settlementId newBal) := by
  have hne : s.settlements settlementId ≠ defaultEntry := by
    intro hc
    rw [hc] at hbr
    exact hbr rfl
  have hsid : settlementId ≤ s.settlementNonce := live_id_le h hne
  have hmem : settlementId ∈ Finset.range (s.settlementNonce + 1) := by
    rw [Finset.mem_range]; omega
  have hsum : sumSettled s
      = sumSettled (reverseApply s settlementId newBal) + (s.settlements settlementId).amount := by
    unfold sumSettled reverseApply
    simp only
    have h1 : ∀ k ∈ Finset.range (s.settlementNonce + 1),
        settledAmount (s.settlements k)
        = settledAmount (Function.update s.settlements settlementId
            { s.settlements settlementId with status := .REVERSED } k)
          + (if k = settlementId then (s.settlements settlementId).amount else 0) := by
      intro k hk
      by_cases hkk : k = settlementId
      · subst hkk
        rw [Function.update_same, if_pos rfl]
        simp [settledAmount, hst]
      · rw [Function.update_noteq hkk, if_neg hkk]
        omega
    rw [Finset.sum_congr rfl h1, Finset.sum_add_distrib, Finset.sum_ite_eq']
    rw [if_pos hmem]
  constructor
  · intro k hk
    have hk2 : s.settlementNonce < k := hk
    unfold reverseApply
    simp only
    rw [Function.update_noteq (by omega)]
    exact h.high_default k hk2
  · have := h.sum_le
    have h2 : (reverseApply s settlementId newBal).totalRevenueReversed
        = s.totalRevenueReversed + (s.settlements settlementId).amount := rfl
    have h3 : (reverseApply s settlementId newBal).totalRevenueBridged
        = s.totalRevenueBridged := rfl
    omega
  · exact h.alloc_sum
  · intro k hk
    unfold reverseApply at hk ⊢
    simp only at hk ⊢
    by_cases hkk : k = settlementId
    · subst hkk
      rw [Function.update_same] at hk
      simp at hk
    · rw [Function.update_noteq hkk] at hk ⊢
      exact h.no_pending k hk

/-- A successful dispute preserves the invariant: the disputed entry leaves
the SETTLED sum (or was already out of it). -/
theorem goodState_disputeApply {s : BridgeState} (h : GoodState s) {settlementId : Nat}
    (hbr : (s.settlements settlementId).bridgedAt ≠ 0) :
    GoodState (disputeApply s settlementId) := by
  have hne : s.settlements settlementId ≠ defaultEntry := by
    intro hc
    rw [hc] at hbr
    exact hbr rfl
  have hsid : settlementId ≤ s.settlementNonce := live_id_le h hne
  have hsum : sumSettled (disputeApply s settlementId) ≤ sumSettled s := by
    unfold sumSettled disputeApply
    simp only
    apply Finset.sum_le_sum
    intro k hk
    by_cases hkk : k = settlementId
    · subst hkk
      rw [Function.update_same]
      simp [settledAmount]
    · rw [Function.update_noteq hkk]
  constructor
  · intro k hk
    have hk2 : s.settlementNonce < k := hk
    unfold disputeApply
    simp only
    rw [Function.update_noteq (by omega)]
    exact h.high_default k hk2
  · have := h.sum_le
    have h2 : (disputeApply s settlementId).totalRevenueReversed
        = s.totalRevenueReversed := rfl
    have h3 : (disputeApply s settlementId).totalRevenueBridged
        = s.totalRevenueBridged := rfl
    omega
  · exact h.alloc_sum
  · intro k hk
    unfold disputeApply at hk ⊢
    simp only at hk ⊢
    by_cases hkk : k = settlementId
    · subst hkk
      rw [Function.update_same] at hk
      simp at hk
    · rw [Function.update_noteq hkk] at hk ⊢
      exact h.no_pending k hk

/-- Every transaction preserves the inductive invariant. -/
theorem goodState_step {s : BridgeState} (h : GoodState s) (op : Op) :
    GoodState (step s op) := by
  cases op with
  | bridge sender time invoiceId amount payer beneficiary currency src dst =>
      simp only [step]
      cases hb : bridgeRevenue s sender false time invoiceId amount payer beneficiary
          currency src dst with
      | error e => exact h
      | ok r =>
          obtain ⟨-, -, -, -, -, -, hr⟩ := bridgeRevenue_ok_inv hb
          subst hr
          exact goodState_bridgeApply h time invoiceId amount payer beneficiary currency
            src dst
  | bridgeStripe sender time invoiceId amount beneficiary =>
      simp only [step]
      cases hb : bridgeStripeRevenue s sender false time invoiceId amount beneficiary with
      | error e => exact h
      | ok r =>
          obtain ⟨e, he⟩ := bridgeStripeRevenue_never_ok s sender false time invoiceId
            amount beneficiary
          rw [hb] at he
          simp at he
  | reverse sender settlementId reason =>
      simp only [step]
      cases hb : reverseSettlement s sender false settlementId reason with
      | error e => exact h
      | ok s1 =>
          obtain ⟨-, -, -, hbr, hst, newBal, -, hr⟩ := reverseSettlement_ok_inv hb
          subst hr
          exact goodState_reverseApply h hbr hst newBal
  | dispute sender settlementId =>
      simp only [step]
      cases hb : disputeSettlement s sender settlementId with
      | error e => exact h
      | ok s1 =>
          obtain ⟨-, hbr, hr⟩ := disputeSettlement_ok_inv hb
          subst hr
          exact goodState_disputeApply h hbr
  | setOp sender newOperator =>
      simp only [step]
      cases hb : setOperator s sender newOperator with
      | error e => exact h
      | ok s1 =>
          unfold setOperator at hb
          split at hb
          · simp at hb
          · split at hb
            · simp at hb
            · injection hb with hb1
              subst hb1
              exact ⟨h.high_default, h.sum_le, h.alloc_sum, h.no_pending⟩
  | setAlloc sender r l e st =>
      simp only [step]
      cases hb : setAllocation s sender r l e st with
      | error e2 => exact h
      | ok s1 =>
          unfold setAllocation at hb
          split at hb
          · simp at hb
          · split at hb
            · simp at hb
            · rename_i h1 h2
              injection hb with hb1
              subst hb1
              refine ⟨h.high_default, h.sum_le, ?_, h.no_pending⟩
              simpa [BASIS_POINTS] using h2
  | pauseCall sender =>
      simp only [step]
      cases hb : pause s sender with
      | error e => exact h
      | ok s1 =>
          unfold pause at hb
          split at hb
          · simp at hb
          · split at hb
            · simp at hb
            · injection hb with hb1
              subst hb1
              exact ⟨h.high_default, h.sum_le, h.alloc_sum, h.no_pending⟩
  | unpauseCall sender =>
      simp only [step]
      cases hb : unpause s sender with
      | error e => exact h
      | ok s1 =>
          unfold unpause at hb
          split at hb
          · simp at hb
          · split at hb
            · injection hb with hb1
              subst hb1
              exact ⟨h.high_default, h.sum_le, h.alloc_sum, h.no_pending⟩
            · simp at hb
  | transferOwn sender newOwner =>
      simp only [step]
      cases hb : transferOwnership s sender newOwner with
      | error e => exact h
      | ok s1 =>
          unfold transferOwnership at hb
          split at hb
          · simp at hb
          · split at hb
            · simp at hb
            · injection hb with hb1
              subst hb1
              exact ⟨h.high_default, h.sum_le, h.alloc_sum, h.no_pending⟩
  | renounceOwn sender =>
      simp only [step]
      cases hb : renounceOwnership s sender with
      | error e => exact h
      | ok s1 =>
          unfold renounceOwnership at hb
          split at hb
          · simp at hb
          · injection hb with hb1
            subst hb1
            exact ⟨h.high_default, h.sum_le, h.alloc_sum, h.no_pending⟩

/-- The freshly constructed contract satisfies the invariant. -/
theorem goodState_init (self operator ownerAddr : Address) :
    GoodState (initState self operator ownerAddr) := by
  constructor
  · intro k _
    rfl
  · simp [sumSettled, initState, settledAmount, defaultEntry]
  · rfl
  · intro k _
    rfl

/-- Every reachable state satisfies the invariant. -/
theorem reachable_goodState {s : BridgeState} (h : Reachable s) : GoodState s := by
  obtain ⟨self, operator, ownerAddr, ops, -, -, rfl⟩ := h
  suffices hgen : ∀ (ops : List Op) (s0 : BridgeState), GoodState s0 → GoodState (run s0 ops) by
    exact hgen ops _ (goodState_init self operator ownerAddr)
  intro ops
  induction ops with
  | nil => intro s0 h0; exact h0
  | cons op rest ih =>
      intro s0 h0
      exact ih (step s0 op) (goodState_step h0 op)

/-- Externally observable status of a settlement id: `none` while no entry is
stored there (the mapping still holds the zero entry), otherwise the stored
status. -/
def statusOf (s : BridgeState) (k : Nat) : Option SettlementStatus :=
  if s.settlements k = defaultEntry then none else some (s.settlements k).status

/-- The status transitions a single transaction can cause on one settlement:
creation goes straight to SETTLED, reversal needs SETTLED, and dispute moves
any existing entry (SETTLED, REVERSED or even DISPUTED) to DISPUTED. -/
def statusStepOK : Option SettlementStatus → Option SettlementStatus → Prop
  | none, none => True
  | none, some .SETTLED => True
  | some .SETTLED, some .SETTLED => True
  | some .SETTLED, some .REVERSED => True
  | some .SETTLED, some .DISPUTED => True
  | some .REVERSED, some .REVERSED => True
  | some .REVERSED, some .DISPUTED => True
  | some .DISPUTED, some .DISPUTED => True
  | _, _ => False

/-- No stored settlement is ever observed PENDING. -/
theorem statusOf_ne_pending {s : BridgeState} (h : GoodState s) (k : Nat) :
    statusOf s k ≠ some .PENDING := by
  unfold statusOf
  split
  · simp
  · next hne =>
    intro hc
    injection hc with hc2
    exact hne (h.no_pending k hc2)

/-- Standing still is an allowed transition for every status that actually
occurs. -/
theorem statusStepOK_refl {x : Option SettlementStatus} (h : x ≠ some .PENDING) :
    statusStepOK x x := by
  match x with
  | none => trivial
  | some .PENDING => exact absurd rfl h
  | some .SETTLED => trivial
  | some .REVERSED => trivial
  | some .DISPUTED => trivial

/-- Every transaction moves every settlement's status along an allowed edge. -/
theorem statusOf_step {s : BridgeState} (h : GoodState s) (op : Op) (k : Nat) :
    statusStepOK (statusOf s k) (statusOf (step s op) k) := by
  have hrefl : statusStepOK (statusOf s k) (statusOf s k) :=
    statusStepOK_refl (statusOf_ne_pending h k)
  cases op with
  | bridge sender time invoiceId amount payer beneficiary currency src dst =>
      simp only [step]
      cases hb : bridgeRevenue s sender false time invoiceId amount payer beneficiary
          currency src dst with
      | error e => exact hrefl
      | ok r =>
          obtain ⟨-, -, -, -, -, -, hr⟩ := bridgeRevenue_ok_inv hb
          subst hr
          by_cases hkk : k = s.settlementNonce + 1
          · subst hkk
            have hbefore : statusOf s (s.settlementNonce + 1) = none := by
              unfold statusOf
              rw [if_pos (h.high_default _ (by omega))]
            have hafter : statusOf (bridgeApply s time invoiceId amount payer beneficiary
                currency src dst) (s.settlementNonce + 1) = some .SETTLED := by
              unfold statusOf bridgeApply
              simp only
              rw [Function.update_same]
              rw [if_neg ?hne]
              case hne =>
                intro hc
                have hc2 := congrArg RevenueEntry.status hc
                simp [defaultEntry] at hc2
            rw [hbefore, hafter]
            trivial
          · have heq : statusOf (bridgeApply s time invoiceId amount payer beneficiary
                currency src dst) k = statusOf s k := by
              unfold statusOf bridgeApply
              simp only
              rw [Function.update_noteq hkk]
            rw [heq]
            exact hrefl
  | bridgeStripe sender time invoiceId amount beneficiary =>
      simp only [step]
      cases hb : bridgeStripeRevenue s sender false time invoiceId amount beneficiary with
      | error e => exact hrefl
      | ok r =>
          obtain ⟨e, he⟩ := bridgeStripeRevenue_never_ok s sender false time invoiceId
            amount beneficiary
          rw [hb] at he
          simp at he
  | reverse sender settlementId reason =>
      simp only [step]
      cases hb : reverseSettlement s sender false settlementId reason with
      | error e => exact hrefl
      | ok s1 =>
          obtain ⟨-, -, -, hbr, hst, newBal, -, hr⟩ := reverseSettlement_ok_inv hb
          subst hr
          by_cases hkk : k = settlementId
          · subst hkk
            have hne : s.settlements k ≠ defaultEntry := by
              intro hc
              rw [hc] at hbr
              exact hbr rfl
            have hbefore : statusOf s k = some .SETTLED := by
              unfold statusOf
              rw [if_neg hne, hst]
            have hafter : statusOf (reverseApply s k newBal) k = some .REVERSED := by
              unfold statusOf reverseApply
              simp only
              rw [Function.update_same]
              rw [if_neg ?hne2]
              case hne2 =>
                intro hc
                exact hbr (congrArg RevenueEntry.bridgedAt hc)
            rw [hbefore, hafter]
            trivial
          · have heq : statusOf (reverseApply s settlementId newBal) k = statusOf s k := by
              unfold statusOf reverseApply
              simp only
              rw [Function.update_noteq hkk]
            rw [heq]
            exact hrefl
  | dispute sender settlementId =>
      simp only [step]
      cases hb : disputeSettlement s sender settlementId with
      | error e => exact hrefl
      | ok s1 =>
          obtain ⟨-, hbr, hr⟩ := disputeSettlement_ok_inv hb
          subst hr
          by_cases hkk : k = settlementId
          · subst hkk
            have hne : s.settlements k ≠ defaultEntry := by
              intro hc
              rw [hc] at hbr
              exact hbr rfl
            have hbefore : statusOf s k = some (s.settlements k).status := by
              unfold statusOf
              rw [if_neg hne]
            have hafter : statusOf (disputeApply s k) k = some .DISPUTED := by
              unfold statusOf disputeApply
              simp only
              rw [Function.update_same]
              rw [if_neg ?hne3]
              case hne3 =>
                intro hc
                exact hbr (congrArg RevenueEntry.bridgedAt hc)
            rw [hbefore, hafter]
            cases hst2 : (s.settlements k).status with
            | PENDING => exact absurd (h.no_pending k hst2) hne
            | SETTLED => trivial
            | REVERSED => trivial
            | DISPUTED => trivial
          · have heq : statusOf (disputeApply s settlementId) k = statusOf s k := by
              unfold statusOf disputeApply
              simp only
              rw [Function.update_noteq hkk]
            rw [heq]
            exact hrefl
  | setOp sender newOperator =>
      simp only [step]
      cases hb : setOperator s sender newOperator with
      | error e => exact hrefl
      | ok s1 =>
          unfold setOperator at hb
          split at hb
          · simp at hb
          · split at hb
            · simp at hb
            · injection hb with hb1
              subst hb1
              exact hrefl
  | setAlloc sender r l e st =>
      simp only [step]
      cases hb : setAllocation s sender r l e st with
      | error e2 => exact hrefl
      | ok s1 =>
          unfold setAllocation at hb
          split at hb
          · simp at hb
          · split at hb
            · simp at hb
            · injection hb with hb1
              subst hb1
              exact hrefl
  | pauseCall sender =>
      simp only [step]
      cases hb : pause s sender with
      | error e => exact hrefl
      | ok s1 =>
          unfold pause at hb
          split at hb
          · simp at hb
          · split at hb
            · simp at hb
            · injection hb with hb1
              subst hb1
              exact hrefl
  | unpauseCall sender =>
      simp only [step]
      cases hb : unpause s sender with
      | error e => exact hrefl
      | ok s1 =>
          unfold unpause at hb
          split at hb
          · simp at hb
          · split at hb
            · injection hb with hb1
              subst hb1
              exact hrefl
            · simp at hb
  | transferOwn sender newOwner =>
      simp only [step]
      cases hb : transferOwnership s sender newOwner with
      | error e => exact hrefl
      | ok s1 =>
          unfold transferOwnership at hb
          split at hb
          · simp at hb
          · split at hb
            · simp at hb
            · injection hb with hb1
              subst hb1
              exact hrefl
  | renounceOwn sender =>
      simp only [step]
      cases hb : renounceOwnership s sender with
      | error e => exact hrefl
      | ok s1 =>
          unfold renounceOwnership at hb
          split at hb
          · simp at hb
          · injection hb with hb1
            subst hb1
            exact hrefl

/-- Success tester for transaction results (the state type carries functions,
so results are inspected rather than compared). -/
def isSuccess {α : Type} : Except BridgeError α → Bool
  | .ok _ => true
  | .error _ => false

/-- Concrete deployment used by witnesses and counterexamples: contract
address 100, operator 1, owner 2; beneficiary 7 in the scenarios. -/
def sInit : BridgeState := initState 100 1 2

/-- First bridge of the scenario: operator bridges invoice "inv_1" for 100. -/
def opBridge1 : Op := .bridge 1 5 "inv_1" 100 0 7 0 SOURCE_STRIPE DEST_DAO_TREASURY

/-- State after the first bridge: settlement 1 is SETTLED. -/
def s1 : BridgeState := step sInit opBridge1

/-- State after bridging "inv_1" and then reversing settlement 1. -/
def sRev : BridgeState := run sInit [opBridge1, .reverse 1 1 0]

/-- State with settlement 1 SETTLED and the contract paused by the owner. -/
def sPausedSettled : BridgeState := run sInit [opBridge1, .pauseCall 2]

/-- Two settlements of 100 each for beneficiary 7, then the owner changes the
allocation config from the default 4000/3000/2000/1000 to 3000/3000/3000/1000. -/
def sC3mid : BridgeState :=
  run sInit [.bridge 1 5 "inv_a" 100 0 7 0 SOURCE_STRIPE DEST_DAO_TREASURY,
             .bridge 1 6 "inv_b" 100 0 7 0 SOURCE_STRIPE DEST_DAO_TREASURY,
             .setAlloc 2 3000 3000 3000 1000]

/-- Reversal of settlement 1 ("inv_a") after the config change. -/
def sC3 : BridgeState := step sC3mid (.reverse 1 1 0)

/-- C2: rebridging an invoice that is already mapped to a settlement, by an
authorized caller on an unpaused contract with a positive amount and nonzero
beneficiary, fails with InvoiceAlreadyProcessed carrying that invoice id and
leaves the entire state unchanged. -/
theorem C2_duplicate_bridge_rejected (s : BridgeState) (sender : Address) (time : Nat)
    (invoiceId : String) (amount : Nat) (payer beneficiary currency : Address)
    (src dst : Nat)
    (hmapped : s.invoiceToSettlement invoiceId ≠ 0)
    (hauth : sender = s.bridgeOperator ∨ sender = s.owner)
    (hpause : s.paused = false) (hamount : amount ≠ 0) (hben : beneficiary ≠ 0) :
    bridgeRevenue s sender false time invoiceId amount payer beneficiary currency src dst
      = .error (.invoiceAlreadyProcessed invoiceId) ∧
    step s (.bridge sender time invoiceId amount payer beneficiary currency src dst) = s := by
  have hA : ¬(sender ≠ s.bridgeOperator ∧ sender ≠ s.owner) := by tauto
  have h1 : bridgeRevenue s sender false time invoiceId amount payer beneficiary currency
      src dst = .error (.invoiceAlreadyProcessed invoiceId) := by
    unfold bridgeRevenue
    rw [if_neg hA, if_neg (by simp), if_neg (by simp [hpause]), if_neg hamount,
      if_neg hben, if_pos hmapped]
  refine ⟨h1, ?_⟩
  simp only [step]
  rw [h1]

/-- Witness for C2: after bridging "inv_1", a second bridge of "inv_1" is
rejected with the invoice id and the state is untouched. -/
theorem C2_duplicate_bridge_rejected_witness :
    bridgeRevenue s1 1 false 9 "inv_1" 50 0 7 0 SOURCE_STRIPE DEST_DAO_TREASURY
      = .error (.invoiceAlreadyProcessed "inv_1") ∧
    step s1 (.bridge 1 9 "inv_1" 50 0 7 0 SOURCE_STRIPE DEST_DAO_TREASURY) = s1 :=
  C2_duplicate_bridge_rejected s1 1 9 "inv_1" 50 0 7 0 SOURCE_STRIPE DEST_DAO_TREASURY
    (by decide) (Or.inl (by decide)) (by decide) (by decide) (by decide)

/-- C3: bridging "inv_a" (issuing 40/30/20/10 under the default config), then
bridging "inv_b", then changing the allocation to 3000/3000/3000/1000, then
reversing "inv_a"'s settlement: the reversal succeeds, increments
totalRevenueReversed by the original 100 and keeps netRevenue consistent, but
burns the split computed from the CURRENT config (30/30/30/10) instead of the
issued split (40/30/20/10), so the beneficiary's partition balances end at
(50,30,10,10) instead of the (40,30,20,10) that "inv_b" alone had issued. -/
theorem C3_reversal_burns_current_config :
    (run sInit [.bridge 1 5 "inv_a" 100 0 7 0 SOURCE_STRIPE DEST_DAO_TREASURY]).balances
        .Reserve 7 = 40 ∧
    (sC3mid.settlements 1).status = .SETTLED ∧
    sC3mid.balances .Reserve 7 = 80 ∧ sC3mid.balances .Liquidity 7 = 60 ∧
    sC3mid.balances .Enterprise 7 = 40 ∧ sC3mid.balances .Staking 7 = 20 ∧
    isSuccess (reverseSettlement sC3mid 1 false 1 0) = true ∧
    sC3.totalRevenueReversed = 100 ∧
    sC3.totalRevenueBridged = 200 ∧
    netRevenue sC3 = 100 ∧
    sC3.balances .Reserve 7 = 50 ∧ sC3.balances .Liquidity 7 = 30 ∧
    sC3.balances .Enterprise 7 = 10 ∧ sC3.balances .Staking 7 = 10 ∧
    calculateAllocations defaultAllocation 100
      = { reserveAmt := 40, liquidityAmt := 30, enterpriseAmt := 20, stakingAmt := 10 } ∧
    calculateAllocations sC3.allocation 100
      = { reserveAmt := 30, liquidityAmt := 30, enterpriseAmt := 30, stakingAmt := 10 } := by
  decide

/-- Counterexample to C4 as stated: settlement 1 is REVERSED, yet
disputeSettlement still succeeds and changes its status to DISPUTED, so a
settlement does leave REVERSED. -/
theorem C4_counterexample :
    (sRev.settlements 1).status = .REVERSED ∧
    isSuccess (disputeSettlement sRev 1 1) = true ∧
    ((step sRev (.dispute 1 1)).settlements 1).status = .DISPUTED := by decide

/-- C4 (amended): in every reachable state every transaction moves every
settlement's status only along the edges (none) to SETTLED, SETTLED to
REVERSED, SETTLED to DISPUTED, REVERSED to DISPUTED, or DISPUTED to DISPUTED
(besides standing still); REVERSED is reached only from SETTLED, nothing is
created REVERSED or DISPUTED, and PENDING never occurs. -/
theorem C4_status_machine (s : BridgeState) (hs : Reachable s) (op : Op) (k : Nat) :
    statusStepOK (statusOf s k) (statusOf (step s op) k) ∧
    statusOf s k ≠ some SettlementStatus.PENDING := by
  have hg := reachable_goodState hs
  exact ⟨statusOf_step hg op k, statusOf_ne_pending hg k⟩

/-- Witness for C4 at the freshly constructed contract and the first bridge. -/
theorem C4_status_machine_witness :
    statusStepOK (statusOf sInit 1) (statusOf (step sInit opBridge1) 1) ∧
    statusOf sInit 1 ≠ some SettlementStatus.PENDING :=
  C4_status_machine sInit ⟨100, 1, 2, [], by decide, by decide, rfl⟩ opBridge1 1

/-- C5 (amended): while paused, bridgeRevenue, reverseSettlement and
bridgeStripeRevenue all fail with OperationPaused and change nothing;
disputeSettlement however is not pause-gated: an authorized dispute of an
existing settlement succeeds even while paused. -/
theorem C5_pause_gating (s : BridgeState) (sender : Address) (time : Nat)
    (invoiceId : String) (amount : Nat) (payer beneficiary currency : Address)
    (src dst settlementId reason : Nat)
    (hauth : sender = s.bridgeOperator ∨ sender = s.owner)
    (hp : s.paused = true) :
    bridgeRevenue s sender false time invoiceId amount payer beneficiary currency src dst
      = .error .operationPaused ∧
    reverseSettlement s sender false settlementId reason = .error .operationPaused ∧
    bridgeStripeRevenue s sender false time invoiceId amount beneficiary
      = .error .operationPaused ∧
    step s (.bridge sender time invoiceId amount payer beneficiary currency src dst) = s ∧
    step s (.reverse sender settlementId reason) = s ∧
    step s (.bridgeStripe sender time invoiceId amount beneficiary) = s ∧
    ((s.settlements settlementId).bridgedAt ≠ 0 →
      disputeSettlement s sender settlementId = .ok (disputeApply s settlementId)) := by
  have hA : ¬(sender ≠ s.bridgeOperator ∧ sender ≠ s.owner) := by tauto
  have h1 : bridgeRevenue s sender false time invoiceId amount payer beneficiary currency
      src dst = .error .operationPaused := by
    unfold bridgeRevenue
    rw [if_neg hA, if_neg (by simp), if_pos hp]
  have h2 : reverseSettlement s sender false settlementId reason
      = .error .operationPaused := by
    unfold reverseSettlement
    rw [if_neg hA, if_neg (by simp), if_pos hp]
  have h3 : bridgeStripeRevenue s sender false time invoiceId amount beneficiary
      = .error .operationPaused := by
    unfold bridgeStripeRevenue
    rw [if_neg hA, if_neg (by simp), if_pos hp]
  refine ⟨h1, h2, h3, ?_, ?_, ?_, ?_⟩
  · simp only [step]
    rw [h1]
  · simp only [step]
    rw [h2]
  · simp only [step]
    rw [h3]
  · intro hbr
    unfold disputeSettlement
    rw [if_neg hA, if_neg hbr]

/-- Witness for C5 (amended) on the concrete paused state. -/
theorem C5_pause_gating_witness :
    bridgeRevenue sPausedSettled 1 false 9 "inv_x" 50 0 7 0 SOURCE_STRIPE DEST_DAO_TREASURY
      = .error .operationPaused ∧
    reverseSettlement sPausedSettled 1 false 1 0 = .error .operationPaused ∧
    bridgeStripeRevenue sPausedSettled 1 false 9 "inv_x" 50 7
      = .error .operationPaused ∧
    step sPausedSettled (.bridge 1 9 "inv_x" 50 0 7 0 SOURCE_STRIPE DEST_DAO_TREASURY)
      = sPausedSettled ∧
    step sPausedSettled (.reverse 1 1 0) = sPausedSettled ∧
    step sPausedSettled (.bridgeStripe 1 9 "inv_x" 50 7) = sPausedSettled ∧
    ((sPausedSettled.settlements 1).bridgedAt ≠ 0 →
      disputeSettlement sPausedSettled 1 1 = .ok (disputeApply sPausedSettled 1)) :=
  C5_pause_gating sPausedSettled 1 9 "inv_x" 50 0 7 0 SOURCE_STRIPE DEST_DAO_TREASURY 1 0
    (Or.inl (by decide)) (by decide)

/-- Counterexample to C5 as stated: with the contract paused and settlement 1
SETTLED, the operator's disputeSettlement does not fail with OperationPaused:
it succeeds and changes the settlement's status. -/
theorem C5_counterexample :
    sPausedSettled.paused = true ∧
    (sPausedSettled.settlements 1).status = .SETTLED ∧
    isSuccess (disputeSettlement sPausedSettled 1 1) = true ∧
    ((step sPausedSettled (.dispute 1 1)).settlements 1).status = .DISPUTED := by decide

/-- C6: bridgeStripeRevenue can never return the bridgeRevenue result the
claim promises: for every state and every input it fails. Its body calls
`this.bridgeRevenue(...)`, an external self-call, so the inner call sees
`msg.sender` equal to the contract's own address (Unauthorized for any normal
configuration), and even when that address is authorized the already-entered
reentrancy guard rejects the nested `nonReentrant` call. On the concrete
deployment the operator's call fails with Unauthorized while the equivalent
direct bridgeRevenue call with the Stripe defaults succeeds. -/
theorem C6_stripe_variant_never_succeeds :
    (∀ (s : BridgeState) (sender : Address) (entered : Bool) (time : Nat)
        (invoiceId : String) (amount : Nat) (beneficiary : Address),
      ∃ e, bridgeStripeRevenue s sender entered time invoiceId amount beneficiary
             = .error e) ∧
    bridgeStripeRevenue sInit 1 false 5 "inv_s" 100 7 = .error .unauthorized ∧
    isSuccess (bridgeRevenue sInit 1 false 5 "inv_s" 100 0 7 0 SOURCE_STRIPE
      DEST_DAO_TREASURY) = true :=
  ⟨bridgeStripeRevenue_never_ok, rfl, by decide⟩

/-- C7: with an authorized caller on an unpaused contract, reverseSettlement
fails with SettlementNotFound on an unknown settlement id (zero `bridgedAt`),
fails with InvalidSettlementStatus reporting the current status and required
SETTLED when the entry exists but is not SETTLED, and any failing reversal
leaves the state unchanged. -/
theorem C7_reverse_guards (s : BridgeState) (sender : Address) (settlementId reason : Nat)
    (hauth : sender = s.bridgeOperator ∨ sender = s.owner)
    (hpause : s.paused = false) :
    ((s.settlements settlementId).bridgedAt = 0 →
      reverseSettlement s sender false settlementId reason
        = .error (.settlementNotFound settlementId)) ∧
    ((s.settlements settlementId).bridgedAt ≠ 0 →
      (s.settlements settlementId).status ≠ .SETTLED →
      reverseSettlement s sender false settlementId reason
        = .error (.invalidSettlementStatus settlementId
            (s.settlements settlementId).status .SETTLED)) ∧
    (∀ e, reverseSettlement s sender false settlementId reason = .error e →
      step s (.reverse sender settlementId reason) = s) := by
  have hA : ¬(sender ≠ s.bridgeOperator ∧ sender ≠ s.owner) := by tauto
  refine ⟨?_, ?_, ?_⟩
  · intro hbr
    unfold reverseSettlement
    rw [if_neg hA, if_neg (by simp), if_neg (by simp [hpause]), if_pos hbr]
  · intro hbr hst
    unfold reverseSettlement
    rw [if_neg hA, if_neg (by simp), if_neg (by simp [hpause]), if_neg hbr, if_pos hst]
  · intro e he
    simp only [step]
    rw [he]

/-- Witness for C7: reversing the already reversed settlement 1 reports
InvalidSettlementStatus (current REVERSED, required SETTLED) and reversing the
unknown id 99 reports SettlementNotFound; neither changes the state. -/
theorem C7_reverse_guards_witness :
    reverseSettlement sRev 1 false 99 0 = .error (.settlementNotFound 99) ∧
    reverseSettlement sRev 1 false 1 0
      = .error (.invalidSettlementStatus 1 (sRev.settlements 1).status .SETTLED) ∧
    step sRev (.reverse 1 1 0) = sRev := by
  have h99 := C7_reverse_guards sRev 1 99 0 (Or.inl (by decide)) (by decide)
  have h1 := C7_reverse_guards sRev 1 1 0 (Or.inl (by decide)) (by decide)
  exact ⟨h99.1 (by decide), h1.2.1 (by decide) (by decide),
    h1.2.2 _ (h1.2.1 (by decide) (by decide))⟩

/-- C8: setAllocation called by the owner with four values not summing to
10000 fails with InvalidPercentages and changes nothing, and in every
reachable state the four configured weights sum to exactly 10000. -/
theorem C8_alloc_sum_invariant :
    (∀ (s : BridgeState) (sender : Address) (r l e st : Nat),
      sender = s.owner → r + l + e + st ≠ 10000 →
      setAllocation s sender r l e st = .error .invalidPercentages ∧
      step s (.setAlloc sender r l e st) = s) ∧
    (∀ s : BridgeState, Reachable s →
      s.allocation.reserveBps + s.allocation.liquidityBps + s.allocation.enterpriseBps
        + s.allocation.stakingBps = 10000) := by
  constructor
  · intro s sender r l e st howner hsum
    have h1 : setAllocation s sender r l e st = .error .invalidPercentages := by
      unfold setAllocation
      rw [if_neg (by simp [howner]), if_pos (by simpa [BASIS_POINTS] using hsum)]
    refine ⟨h1, ?_⟩
    simp only [step]
    rw [h1]
  · intro s hs
    exact (reachable_goodState hs).alloc_sum

/-- Witness for C8: the owner's setAllocation 1/2/3/4 is rejected without
state change, and the constructed contract's weights sum to 10000. -/
theorem C8_alloc_sum_invariant_witness :
    (setAllocation sInit 2 1 2 3 4 = .error .invalidPercentages ∧
     step sInit (.setAlloc 2 1 2 3 4) = sInit) ∧
    sInit.allocation.reserveBps + sInit.allocation.liquidityBps
      + sInit.allocation.enterpriseBps + sInit.allocation.stakingBps = 10000 :=
  ⟨C8_alloc_sum_invariant.1 sInit 2 1 2 3 4 (by decide) (by decide),
   C8_alloc_sum_invariant.2 sInit ⟨100, 1, 2, [], by decide, by decide, rfl⟩⟩

/-- C9: once an invoice id is mapped to a settlement, no transaction
(reversal and dispute included) removes or changes the mapping, and every
further bridgeRevenue call for that invoice id fails. -/
theorem C9_invoice_binding_permanent (s : BridgeState) (invoiceId : String)
    (hmapped : s.invoiceToSettlement invoiceId ≠ 0) :
    (∀ op : Op, (step s op).invoiceToSettlement invoiceId
        = s.invoiceToSettlement invoiceId) ∧
    (∀ (sender : Address) (entered : Bool) (time amount : Nat)
        (payer beneficiary currency : Address) (src dst : Nat),
      ∃ e, bridgeRevenue s sender entered time invoiceId amount payer beneficiary currency
             src dst = .error e) := by
  constructor
  · intro op
    cases op with
    | bridge sender time inv2 amount payer beneficiary currency src dst =>
        simp only [step]
        cases hb : bridgeRevenue s sender false time inv2 amount payer beneficiary
            currency src dst with
        | error e => rfl
        | ok r =>
            obtain ⟨-, -, -, -, -, hinv2, hr⟩ := bridgeRevenue_ok_inv hb
            subst hr
            unfold bridgeApply
            simp only
            have hne : invoiceId ≠ inv2 := by
              intro hc
              rw [hc] at hmapped
              exact hmapped hinv2
            rw [Function.update_noteq hne]
    | bridgeStripe sender time inv2 amount beneficiary =>
        simp only [step]
        cases hb : bridgeStripeRevenue s sender false time inv2 amount beneficiary with
        | error e => rfl
        | ok r =>
            obtain ⟨e, he⟩ := bridgeStripeRevenue_never_ok s sender false time inv2
              amount beneficiary
            rw [hb] at he
            simp at he
    | reverse sender settlementId reason =>
        simp only [step]
        cases hb : reverseSettlement s sender false settlementId reason with
        | error e => rfl
        | ok s1 =>
            obtain ⟨-, -, -, -, -, newBal, -, hr⟩ := reverseSettlement_ok_inv hb
            subst hr
            rfl
    | dispute sender settlementId =>
        simp only [step]
        cases hb : disputeSettlement s sender settlementId with
        | error e => rfl
        | ok s1 =>
            obtain ⟨-, -, hr⟩ := disputeSettlement_ok_inv hb
            subst hr
            rfl
    | setOp sender newOperator =>
        simp only [step]
        cases hb : setOperator s sender newOperator with
        | error e => rfl
        | ok s1 =>
            unfold setOperator at hb
            split at hb
            · simp at hb
            · split at hb
              · simp at hb
              · injection hb with hb1
                subst hb1
                rfl
    | setAlloc sender r l e st =>
        simp only [step]
        cases hb : setAllocation s sender r l e st with
        | error e2 => rfl
        | ok s1 =>
            unfold setAllocation at hb
            split at hb
            · simp at hb
            · split at hb
              · simp at hb
              · injection hb with hb1
                subst hb1
                rfl
    | pauseCall sender =>
        simp only [step]
        cases hb : pause s sender with
        | error e => rfl
        | ok s1 =>
            unfold pause at hb
            split at hb
            · simp at hb
            · split at hb
              · simp at hb
              · injection hb with hb1
                subst hb1
                rfl
    | unpauseCall sender =>
        simp only [step]
        cases hb : unpause s sender with
        | error e => rfl
        | ok s1 =>
            unfold unpause at hb
            split at hb
            · simp at hb
            · split at hb
              · injection hb with hb1
                subst hb1
                rfl
              · simp at hb
    | transferOwn sender newOwner =>
        simp only [step]
        cases hb : transferOwnership s sender newOwner with
        | error e => rfl
        | ok s1 =>
            unfold transferOwnership at hb
            split at hb
            · simp at hb
            · split at hb
              · simp at hb
              · injection hb with hb1
                subst hb1
                rfl
    | renounceOwn sender =>
        simp only [step]
        cases hb : renounceOwnership s sender with
        | error e => rfl
        | ok s1 =>
            unfold renounceOwnership at hb
            split at hb
            · simp at hb
            · injection hb with hb1
              subst hb1
              rfl
  · intro sender entered time amount payer beneficiary currency src dst
    unfold bridgeRevenue
    split
    · exact ⟨_, rfl⟩
    · split
      · exact ⟨_, rfl⟩
      · split
        · exact ⟨_, rfl⟩
        · split
          · exact ⟨_, rfl⟩
          · split
            · exact ⟨_, rfl⟩
            · exact ⟨_, rfl⟩

/-- Witness for C9: after "inv_1" is bridged, a dispute leaves its mapping
unchanged and rebridging "inv_1" fails. -/
theorem C9_invoice_binding_permanent_witness :
    (step s1 (.dispute 1 1)).invoiceToSettlement "inv_1"
      = s1.invoiceToSettlement "inv_1" ∧
    ∃ e, bridgeRevenue s1 1 false 9 "inv_1" 50 0 7 0 SOURCE_STRIPE DEST_DAO_TREASURY
           = .error e :=
  ⟨(C9_invoice_binding_permanent s1 "inv_1" (by decide)).1 (.dispute 1 1),
   (C9_invoice_binding_permanent s1 "inv_1" (by decide)).2 1 false 9 50 0 7 0
     SOURCE_STRIPE DEST_DAO_TREASURY⟩

/-- C10: in every reachable state totalRevenueReversed is at most
totalRevenueBridged, so the unsigned subtraction inside netRevenue never
underflows: netRevenue plus the reversed total gives back the bridged total. -/
theorem C10_reversed_le_bridged (s : BridgeState) (hs : Reachable s) :
    s.totalRevenueReversed ≤ s.totalRevenueBridged ∧
    netRevenue s + s.totalRevenueReversed = s.totalRevenueBridged := by
  have hg := reachable_goodState hs
  have h1 := hg.sum_le
  constructor
  · omega
  · unfold netRevenue
    omega

/-- Witness for C10 on the bridge-then-reverse scenario state. -/
theorem C10_reversed_le_bridged_witness :
    sRev.totalRevenueReversed ≤ sRev.totalRevenueBridged ∧
    netRevenue sRev + sRev.totalRevenueReversed = sRev.totalRevenueBridged :=
  C10_reversed_le_bridged sRev
    ⟨100, 1, 2, [opBridge1, .reverse 1 1 0], by decide, by decide, rfl⟩

end RevenueBridge
